import Mathlib

/-!
Verification of the LTFS Data Management scheduler and request-dispatch core
(`src/server/Scheduler.cc`, `src/server/MessageParser.cc`) via a shallow
embedding.  Pure control flow of the C++ handlers is translated into
executable Lean functions over explicit state records; the persistent queue
and inventory are modelled as lists of rows.
-/

namespace LTFSDM

/-- Modelled from the spec: `Const::UNSET` (the header defining it is not in
the sources).  It marks unset numeric fields such as a drive's `moveReqNum`
and the sentinel numerics of the info streams; a value distinct from every
valid slot or request number, conventionally -1. -/
def UNSET : Int := -1

/-- Modelled from the spec: `DataBase::operation` (the header is not in the
sources).  Constructor order follows the spec's priority order
"recall > migration > format/check > mount/move/unmount", which is also the
operation-code-major ordering of the scheduler's SELECT. -/
inductive DBOp
  | TRARECALL
  | SELRECALL
  | MIGRATION
  | FORMAT
  | CHECK
  | MOUNT
  | MOVE
  | UNMOUNT
deriving DecidableEq, Repr

/-- Numeric operation code: position in the priority order; used for the
`op < drive->getToUnblock()` comparison in `Scheduler::tapeResAvail`. -/
def opCode : DBOp → Nat
  | .TRARECALL => 0
  | .SELRECALL => 1
  | .MIGRATION => 2
  | .FORMAT => 3
  | .CHECK => 4
  | .MOUNT => 5
  | .MOVE => 6
  | .UNMOUNT => 7

/-- Cartridge states of `LTFSDMCartridge` (`TAPE_INUSE`, `TAPE_MOUNTED`,
`TAPE_MOVING`, `TAPE_UNMOUNTED`, `TAPE_INVALID`, `TAPE_UNKNOWN`). -/
inductive CartState
  | UNMOUNTED
  | MOUNTED
  | MOVING
  | INUSE
  | INVALID
  | UNKNOWN
deriving DecidableEq, Repr

/-- A cartridge record of the inventory. -/
structure Cartridge where
  id : String
  slot : Nat
  state : CartState
  requested : Bool
  remainingCap : Nat
deriving DecidableEq, Repr

/-- A drive record of the inventory. -/
structure Drive where
  id : String
  slot : Nat
  busy : Bool
  moveReqNum : Int
  moveReqPool : String
  toUnblock : DBOp
deriving DecidableEq, Repr

/-- `inventory->getCartridge(id)`: first cartridge with the given id. -/
def getCartridge (carts : List Cartridge) (tid : String) : Option Cartridge :=
  carts.find? (fun c => c.id == tid)

/-- `inventory->getDrive(id)`: first drive with the given id. -/
def getDrive (drives : List Drive) (did : String) : Option Drive :=
  drives.find? (fun d => d.id == did)

/-- Update the first cartridge with the given id (the record the shared
pointer returned by `getCartridge` refers to). -/
def updateCart (carts : List Cartridge) (tid : String) (f : Cartridge → Cartridge) :
    List Cartridge :=
  match carts with
  | [] => []
  | c :: rest =>
    if c.id == tid then f c :: rest else c :: updateCart rest tid f

/-- Update the first drive with the given id. -/
def updateDrive (drives : List Drive) (did : String) (f : Drive → Drive) :
    List Drive :=
  match drives with
  | [] => []
  | d :: rest =>
    if d.id == did then f d :: rest else d :: updateDrive rest did f

/- ----------------------------------------------------------------- -/
/- Scheduler                                                          -/
/- ----------------------------------------------------------------- -/

/-- `TapeMover::operation`. -/
inductive TMOp
  | MOUNT
  | MOVE
  | UNMOUNT
deriving DecidableEq, Repr

/-- A tape motion enqueued by `Scheduler::moveTape`
(`TapeMover(driveId, tapeId, top)` handed to `subs.enqueue`). -/
structure MoveAction where
  driveId : String
  tapeId : String
  top : TMOp
deriving DecidableEq, Repr

/-- Modelled from the spec: `LTFSDMInventory::requestExists(reqNum, pool)`
(the inventory implementation is not in the sources); per section 4.2 it is
true if some drive already has a pending motion for that request. -/
def requestExists (drives : List Drive) (r : Int) (p : String) : Bool :=
  drives.any (fun d => d.moveReqNum == r && d.moveReqPool == p)

/-- Number of drives whose pending-motion fields carry the pair `(r, p)`;
invariant I1 bounds it by one for every real request number. -/
def pendingCount (drives : List Drive) (r : Int) (p : String) : Nat :=
  drives.countP (fun d => d.moveReqNum == r && d.moveReqPool == p)

/-- The scheduler's per-request member state while handling one row of the
request queue (`op`, `reqNum`, `pool`, `tapeId`, `driveId`, `mountTarget`
are members of `Scheduler`), together with the inventory it reads. -/
structure SchedState where
  drives : List Drive
  carts : List Cartridge
  op : DBOp
  reqNum : Int
  pool : String
  tapeId : String
  driveId : String
  mountTarget : TMOp
deriving Repr

/-- Outcome of a `resAvail` family call: the boolean result, the inventory
after any mutation, the possibly updated `driveId` member, and the tape
motions enqueued. -/
structure SchedResult where
  avail : Bool
  drives : List Drive
  carts : List Cartridge
  driveId : String
  actions : List MoveAction
deriving Repr

/-- `Scheduler::driveIsUsable`: not busy, and no pending motion except one
already owned by the current `(reqNum, pool)` decision. -/
def driveIsUsable (st : SchedState) (d : Drive) : Bool :=
  if d.busy then false
  else if d.moveReqNum != UNSET
      && !(d.moveReqNum == st.reqNum && d.moveReqPool == st.pool) then false
  else true

/-- `Scheduler::makeUse(driveId, tapeId)`: mark the drive busy and the
cartridge `TAPE_INUSE`. -/
def makeUse (drives : List Drive) (carts : List Cartridge) (did tid : String) :
    List Drive × List Cartridge :=
  (updateDrive drives did (fun d => { d with busy := true }),
   updateCart carts tid (fun c => { c with state := CartState.INUSE }))

/-- `Scheduler::moveTape(driveId, tapeId, top)`: returns unchanged when the
scheduled operation itself is a mount/move/unmount, or when
`requestExists(reqNum, pool)` already holds; otherwise records
`(reqNum, pool)` as the drive's pending motion and enqueues the mover. -/
def moveTape (st : SchedState) (did tid : String) (top : TMOp) :
    List Drive × List MoveAction :=
  if st.op == DBOp.MOUNT || st.op == DBOp.MOVE || st.op == DBOp.UNMOUNT then
    (st.drives, [])
  else if requestExists st.drives st.reqNum st.pool then
    (st.drives, [])
  else
    (updateDrive st.drives did
       (fun d => { d with moveReqNum := st.reqNum, moveReqPool := st.pool }),
     [⟨did, tid, top⟩])

/-- Whether some cartridge is `TAPE_MOUNTED` at the given drive slot (the
inner loop of the free-drive search in `tapeResAvail`/`poolResAvail`). -/
def hasMountedAtSlot (carts : List Cartridge) (slot : Nat) : Bool :=
  carts.any (fun c => c.slot == slot && c.state == CartState.MOUNTED)

/-- First usable drive with no mounted cartridge at its slot (the free-drive
loop of `tapeResAvail`; the loop body only acts when additionally the
requested cartridge is `TAPE_UNMOUNTED`, a test independent of the drive). -/
def findFreeDrive (st : SchedState) : Option Drive :=
  st.drives.find? (fun d => driveIsUsable st d && !hasMountedAtSlot st.carts d.slot)

/-- First usable drive holding a mounted cartridge at its slot, paired with
the first such cartridge (the unmount loop of `tapeResAvail` and the last
loop of `poolResAvail`). -/
def findUnmountPair (st : SchedState) : Option (Drive × Cartridge) :=
  st.drives.findSome? (fun d =>
    if driveIsUsable st d then
      (st.carts.find? (fun c => c.slot == d.slot
          && c.state == CartState.MOUNTED)).map (fun c => (d, c))
    else none)

/-- The suspend loop at the end of `tapeResAvail`: walk the drives and, at
the first one whose `toUnblock` has a strictly larger operation code than
the current operation, set its `toUnblock` to the current operation and
stop; the boolean records whether such a drive was found. -/
def suspendStage (o : DBOp) : List Drive → List Drive × Bool
  | [] => ([], false)
  | d :: rest =>
    if opCode o < opCode d.toUnblock then
      ({ d with toUnblock := o } :: rest, true)
    else
      let r := suspendStage o rest
      (d :: r.1, r.2)

/-- Stages 4-6 of `Scheduler::tapeResAvail`: the unmount search, the
`isRequested` early return, and the suspend loop. -/
def tapeResAvailRest (st : SchedState) (cart : Cartridge) : SchedResult :=
  match findUnmountPair st with
  | some dc =>
    let mt := moveTape st dc.1.id dc.2.id TMOp.UNMOUNT
    ⟨false, mt.1,
      updateCart st.carts st.tapeId (fun c => { c with requested := false }),
      st.driveId, mt.2⟩
  | none =>
    if cart.requested then
      ⟨false, st.drives, st.carts, st.driveId, []⟩
    else
      let ss := suspendStage st.op st.drives
      ⟨false, ss.1,
        if ss.2 then
          updateCart st.carts st.tapeId (fun c => { c with requested := true })
        else st.carts,
        st.driveId, []⟩

/-- `Scheduler::tapeResAvail`: availability of a request that needs the
specific cartridge `st.tapeId`.  When the cartridge is absent from the
inventory the source would dereference a null handle inside an assert-guarded
path; that case is unreachable for scheduled requests and modelled as an
unavailable no-op. -/
def tapeResAvail (st : SchedState) : SchedResult :=
  match getCartridge st.carts st.tapeId with
  | none => ⟨false, st.drives, st.carts, st.driveId, []⟩
  | some cart =>
    if cart.state == CartState.MOVING || cart.state == CartState.INUSE then
      ⟨false, st.drives, st.carts, st.driveId, []⟩
    else if cart.state == CartState.MOUNTED then
      match st.drives.find? (fun d => d.slot == cart.slot) with
      | some d =>
        let mu := makeUse st.drives st.carts d.id st.tapeId
        ⟨true, mu.1, mu.2, d.id, []⟩
      | none =>
        -- `assert(found == true)` in the source: a mounted cartridge always
        -- has a drive at its slot
        ⟨true, st.drives, st.carts, st.driveId, []⟩
    else if cart.state == CartState.UNMOUNTED then
      match findFreeDrive st with
      | some d =>
        let mt := moveTape st d.id st.tapeId st.mountTarget
        ⟨false, mt.1, st.carts, st.driveId, mt.2⟩
      | none => tapeResAvailRest st cart
    else
      tapeResAvailRest st cart

/-- Outcome of the first loop of `Scheduler::poolResAvail`. -/
inductive ScanOutcome
  | found (driveId tapeId : String) (drives : List Drive) (carts : List Cartridge)
  | notFound (unmountedExists : Bool)
deriving Repr

/-- First loop of `Scheduler::poolResAvail` over the members of the target
pool.  When `inventory->getCartridge(cartname)` returns null the source
emits LTFSDMX0034E and removes the member from the pool configuration, but
does not skip to the next member: the immediately following
`cart->getState()` dereferences the null handle, modelled as
`Except.error ()`.  (The write of the `tapeId` member for a mounted
cartridge that is not reserved is dropped: it is only read on the found
path.) -/
def poolResAvailScan (drives : List Drive) (carts : List Cartridge)
    (minFileSize : Nat) (unmountedExists : Bool) :
    List String → Except Unit ScanOutcome
  | [] => .ok (.notFound unmountedExists)
  | cartname :: rest =>
    match getCartridge carts cartname with
    | none => .error ()
    | some cart =>
      if cart.state == CartState.MOUNTED then
        match drives.find? (fun d => d.slot == cart.slot
            && decide (1024 * 1024 * cart.remainingCap ≥ minFileSize)) with
        | some d =>
          let mu := makeUse drives carts d.id cartname
          .ok (.found d.id cartname mu.1 mu.2)
        | none => poolResAvailScan drives carts minFileSize unmountedExists rest
      else if cart.state == CartState.UNMOUNTED then
        poolResAvailScan drives carts minFileSize true rest
      else
        poolResAvailScan drives carts minFileSize unmountedExists rest

/- ----------------------------------------------------------------- -/
/- MessageParser::stopMessage                                         -/
/- ----------------------------------------------------------------- -/

/-- Request states stored in the `STATE` column of `REQUEST_QUEUE`
(`DataBase::REQ_NEW`, `REQ_INPROGRESS`, `REQ_COMPLETED`). -/
inductive ReqState
  | NEW
  | INPROGRESS
  | COMPLETED
deriving DecidableEq, Repr

/-- The three monotonic termination flags of `Server`. -/
structure ServerFlags where
  terminate : Bool
  forcedTerminate : Bool
  finishTerminate : Bool
deriving DecidableEq, Repr

/-- The loop of `stopMessage` counting rows of
`SELECT STATE FROM REQUEST_QUEUE` that are `REQ_INPROGRESS`. -/
def countInProgress (queue : List ReqState) : Nat :=
  queue.countP (fun s => s == ReqState.INPROGRESS)

/-- Payload of a stop request (`LTFSDmStopRequest`): the two flags. -/
structure StopReq where
  forced : Bool
  finish : Bool
deriving DecidableEq, Repr

/-- Flag updates performed at the head of `stopMessage`:
`Server::terminate = true`; `forcedTerminate` when `stopreq.forced()`;
`finishTerminate` when `stopreq.finish()` (all flags are monotonic). -/
def stopSetFlags (req : StopReq) (f : ServerFlags) : ServerFlags :=
  { terminate := true
    forcedTerminate := f.forcedTerminate || req.forced
    finishTerminate := f.finishTerminate || req.finish }

/-- One iteration of the do-while loop of `stopMessage`: `numreqs` is the
number of `REQ_INPROGRESS` rows, but the queue is only consulted when both
`Server::forcedTerminate` and `Server::finishTerminate` are false. -/
def stopNumReqs (f : ServerFlags) (queue : List ReqState) : Nat :=
  if f.forcedTerminate = false ∧ f.finishTerminate = false then
    countInProgress queue
  else 0

/-- The `success` field of the `stopresp` sent in that iteration:
`numreqs == 0`. -/
def stopRespSuccess (f : ServerFlags) (queue : List ReqState) : Bool :=
  stopNumReqs f queue == 0

/-- The sequence of `stopresp.success` values sent by the do-while loop of
`stopMessage`, one per snapshot of the request queue observed at each
iteration (the client polls again whenever `numreqs > 0`). -/
def stopReplies (f : ServerFlags) : List (List ReqState) → List Bool
  | [] => []
  | q :: rest =>
    if stopNumReqs f q == 0 then [true]
    else false :: stopReplies f rest

/- ----------------------------------------------------------------- -/
/- Error codes (src/common/errors/errors.h)                           -/
/- ----------------------------------------------------------------- -/

def LTFSDM_OK : Int := 0
def LTFSDM_TAPE_EXISTS_IN_POOL : Int := 1005
def LTFSDM_TAPE_NOT_EXISTS_IN_POOL : Int := 1006
def LTFSDM_POOL_EXISTS : Int := 1007
def LTFSDM_POOL_NOT_EXISTS : Int := 1008
def LTFSDM_TAPE_NOT_EXISTS : Int := 1009
def LTFSDM_POOL_NOT_EMPTY : Int := 1010
def LTFSDM_WRONG_POOLNUM : Int := 1011
def LTFSDM_NOT_ALL_POOLS_EXIST : Int := 1012

/-- Modelled from the spec: `Error::LTFSDM_TERMINATING` is referenced by
`migrationMessage`/`selRecallMessage` but absent from `errors.h` in the
sources; section 7 lists *terminating* as its own error kind.  Any code
distinct from the validation errors above. -/
def LTFSDM_TERMINATING : Int := 1100

/-- SQLite extended result code for a primary-key constraint violation. -/
def SQLITE_CONSTRAINT_PRIMARYKEY : Int := 1555

/-- SQLite extended result code for a unique-constraint violation. -/
def SQLITE_CONSTRAINT_UNIQUE : Int := 2067

/- ----------------------------------------------------------------- -/
/- MessageParser::getObjects (receive-objects loop)                   -/
/- ----------------------------------------------------------------- -/

/-- One batch of filenames streamed by the client (`LTFSDmSendObjects`).
Per spec section 6 every message variant carries the shared session key as
its first field; the receive-objects loop never reads it. -/
structure Batch where
  key : Int
  filenames : List String
deriving DecidableEq, Repr

/-- Per-file diagnostics emitted by the receive-objects loop:
`LTFSDMS0019E` for a duplicate filename (unique or primary-key constraint
violation), `LTFSDMS0015E` for any other store failure. -/
inductive Diag
  | duplicate (fn : String)
  | insertFail (fn : String)
deriving DecidableEq, Repr

/-- Modelled from the spec: `FileOperation::addJob` and the SQLite store are
not in the sources; per section 3 `(fileName, reqNum, replNum)` is a primary
key and duplicate submissions are rejected by the store.  The job table of
the one `(reqNum, replNum)` under construction is the list of its filenames;
inserting a present filename fails with a unique-constraint violation. -/
def addJob (jobs : List String) (fn : String) : Except Int (List String) :=
  if fn ∈ jobs then .error SQLITE_CONSTRAINT_UNIQUE else .ok (jobs ++ [fn])

/-- Job insertions and per-file diagnostics accumulated by the
receive-objects loop. -/
structure ObjState where
  jobs : List String
  diags : List Diag
deriving DecidableEq, Repr

/-- The for loop over the filenames of one batch in
`MessageParser::getObjects`.  Each iteration first checks
`Server::terminate` (a true flag closes the connection and abandons the
handler, modelled as `none`).  A non-empty filename is inserted as a job;
a failed insertion is reported per file and the loop continues.  An empty
filename clears the continue flag, but the loop still visits the remaining
filenames of the batch. -/
def processFiles (term : Bool) (st : ObjState) (cont : Bool) :
    List String → Option (ObjState × Bool)
  | [] => some (st, cont)
  | fn :: rest =>
    if term then none
    else if fn ≠ "" then
      match addJob st.jobs fn with
      | .ok jobs2 => processFiles term { st with jobs := jobs2 } cont rest
      | .error code =>
        if code == SQLITE_CONSTRAINT_PRIMARYKEY
            || code == SQLITE_CONSTRAINT_UNIQUE then
          processFiles term { st with diags := st.diags ++ [.duplicate fn] } cont rest
        else
          processFiles term { st with diags := st.diags ++ [.insertFail fn] } cont rest
    else
      processFiles term st false rest

/-- `MessageParser::getObjects`: receive batches while the continue flag
holds; after each batch send `sendobjectsresp` with the `success` flag,
which is initialised to true and never modified.  Returns the final job
state and the list of `success` values sent. -/
def getObjects (f : ServerFlags) (st : ObjState) : List Batch → ObjState × List Bool
  | [] => (st, [])
  | b :: rest =>
    if f.forcedTerminate then (st, [])
    else
      match processFiles f.terminate st true b.filenames with
      | none => (st, [])
      | some (st2, cont) =>
        if cont then
          let t := getObjects f st2 rest
          (t.1, true :: t.2)
        else (st2, [true])

/- ----------------------------------------------------------------- -/
/- MessageParser::migrationMessage                                    -/
/- ----------------------------------------------------------------- -/

/-- Comma splitting over the character list: the token read so far is
accumulated in reverse; a comma closes the current token. -/
def splitPoolsAux (cur : List Char) : List Char → List String
  | [] => [String.mk cur.reverse]
  | c :: cs =>
    if c = ',' then String.mk cur.reverse :: splitPoolsAux [] cs
    else splitPoolsAux (c :: cur) cs

/-- `std::getline(poolss, pool, ',')` over the `pools` field: split at
commas; `getline` fails on an exhausted stream, so the empty string yields
no items and a trailing comma yields no trailing empty item. -/
def splitPools (s : String) : List String :=
  match s.data with
  | [] => []
  | cs =>
    let l := splitPoolsAux [] cs
    if cs.getLast? = some ',' then l.dropLast else l

/-- The pool-validation loop of `migrationMessage`: walk the parsed pool
names; at the first name for which `inventory->getPool` yields null, set
`error = LTFSDM_NOT_ALL_POOLS_EXIST` and stop; otherwise accumulate the
distinct names (the `std::set` is a duplicate-free list here, in insertion
order). -/
def collectPools (exist : String → Bool) (acc : List String) :
    List String → Int × List String
  | [] => (LTFSDM_OK, acc)
  | p :: rest =>
    if exist p = false then (LTFSDM_NOT_ALL_POOLS_EXIST, acc)
    else collectPools exist (if p ∈ acc then acc else acc ++ [p]) rest

/-- Observable outcome of `migrationMessage` after the key check passed:
the `error` field of the `migrequestresp`, the `numRepl` (`pools.size()`)
handed to the `Migration` constructor, and whether the handler proceeded to
the receive-objects loop and `addRequest` (which only happens when
`error == 0`). -/
structure MigOutcome where
  error : Int
  numRepl : Nat
  workerStarted : Bool
deriving DecidableEq, Repr

/-- `MessageParser::migrationMessage`: key check first (`none` models the
immediate return after `LTFSDMS0008E`); under `Server::terminate` the reply
is the terminating error and nothing is admitted; otherwise the pools field
is validated and a distinct-pool count above three yields
`LTFSDM_WRONG_POOLNUM`. -/
def migrationMessage (serverKey keySent : Int) (terminate : Bool)
    (exist : String → Bool) (poolsField : String) : Option MigOutcome :=
  if keySent != serverKey then none
  else if terminate = false then
    let r := collectPools exist [] (splitPools poolsField)
    let err := if r.1 == LTFSDM_OK && decide (r.2.length > 3) then
        LTFSDM_WRONG_POOLNUM
      else r.1
    some { error := err, numRepl := r.2.length, workerStarted := err == LTFSDM_OK }
  else
    some { error := LTFSDM_TERMINATING, numRepl := 0, workerStarted := false }

/- ----------------------------------------------------------------- -/
/- Info streams and their sentinel rows                               -/
/- ----------------------------------------------------------------- -/

/-- A value written by one protobuf setter call. -/
inductive FieldVal
  | s (v : String)
  | n (v : Int)
  | b (v : Bool)
deriving DecidableEq, Repr

/-- One streamed response row, as the ordered sequence of setter calls the
handler performs on the fresh response object. -/
abbrev RespRow := List (String × FieldVal)

/-- Modelled from the spec: `DataBase::opStr` is not in the sources; the
operation names of the section 4.6 table, each nonempty. -/
def opStr : DBOp → String
  | .TRARECALL => "transparent recall"
  | .SELRECALL => "selective recall"
  | .MIGRATION => "migration"
  | .FORMAT => "format"
  | .CHECK => "check"
  | .MOUNT => "mount"
  | .MOVE => "move"
  | .UNMOUNT => "unmount"

/-- Modelled from the spec: `DataBase::reqStateStr` is not in the sources;
nonempty words for the three request states. -/
def reqStateStr : ReqState → String
  | .NEW => "new"
  | .INPROGRESS => "in progress"
  | .COMPLETED => "completed"

/-- File states of a job row (`FsObj::file_state`), following the spec's
`RESIDENT → PREMIGRATED → MIGRATED` lifecycle plus a failed marker. -/
inductive FileState
  | RESIDENT
  | PREMIGRATED
  | MIGRATED
  | FAILED
deriving DecidableEq, Repr

/-- Modelled from the spec: `FsObj::migStateStr` is not in the sources;
nonempty words for the file states. -/
def migStateStr : FileState → String
  | .RESIDENT => "resident"
  | .PREMIGRATED => "premigrated"
  | .MIGRATED => "migrated"
  | .FAILED => "failed"

/-- Modelled from the spec: the message catalog entries
LTFSDMS0055I..LTFSDMS0060I used by `infoTapesMessage` to render a cartridge
state are not in the sources; nonempty words per state (the switch has a
"-" default, unreachable as the six cases are exhaustive). -/
def cartStateStr : CartState → String
  | .INUSE => "in use"
  | .MOUNTED => "mounted"
  | .MOVING => "moving"
  | .UNMOUNTED => "unmounted"
  | .INVALID => "invalid"
  | .UNKNOWN => "unknown"

/-- A row of `REQUEST_QUEUE` as selected by `infoRequestsMessage`
(`OPERATION, REQ_NUM, TAPE_ID, TARGET_STATE, STATE`); a NULL `TAPE_ID`
column is `none`. -/
structure RequestRow where
  op : DBOp
  reqNum : Int
  tapeId : Option String
  tgtState : ReqState
  state : ReqState
deriving DecidableEq, Repr

/-- The setter calls of `infoRequestsMessage` for one data row (a NULL
tape id is rendered as the empty string). -/
def renderRequest (r : RequestRow) : RespRow :=
  [("operation", .s (opStr r.op)),
   ("reqnumber", .n r.reqNum),
   ("tapeid", .s (match r.tapeId with | none => "" | some t => t)),
   ("targetstate", .s (reqStateStr r.tgtState)),
   ("state", .s (reqStateStr r.state))]

/-- The sentinel row closing the requests stream. -/
def requestsSentinel : RespRow :=
  [("operation", .s ""),
   ("reqnumber", .n UNSET),
   ("tapeid", .s ""),
   ("targetstate", .s ""),
   ("state", .s "")]

/-- `MessageParser::infoRequestsMessage`: key check, the optionally
filtered rows, then the sentinel. -/
def infoRequestsMessage (serverKey keySent reqFilter : Int)
    (rows : List RequestRow) : List RespRow :=
  if keySent != serverKey then []
  else
    (if reqFilter == UNSET then rows
     else rows.filter (fun r => r.reqNum == reqFilter)).map renderRequest
      ++ [requestsSentinel]

/-- A row of `JOB_QUEUE` as selected by `infoJobsMessage`; NULL text
columns are `none`. -/
structure JobRow where
  op : DBOp
  fileName : Option String
  reqNum : Int
  replNum : Int
  fileSize : Int
  tapeId : Option String
  fileState : FileState
deriving DecidableEq, Repr

/-- The setter calls of `infoJobsMessage` for one data row (NULL file name
or tape id is rendered as a dash). -/
def renderJob (j : JobRow) : RespRow :=
  [("operation", .s (opStr j.op)),
   ("filename", .s (match j.fileName with | none => "-" | some f => f)),
   ("reqnumber", .n j.reqNum),
   ("replnumber", .n j.replNum),
   ("filesize", .n j.fileSize),
   ("tapeid", .s (match j.tapeId with | none => "-" | some t => t)),
   ("state", .s (migStateStr j.fileState))]

/-- The sentinel row closing the jobs stream. -/
def jobsSentinel : RespRow :=
  [("operation", .s ""),
   ("filename", .s ""),
   ("reqnumber", .n UNSET),
   ("replnumber", .n UNSET),
   ("filesize", .n UNSET),
   ("tapeid", .s ""),
   ("state", .s "")]

/-- `MessageParser::infoJobsMessage`. -/
def infoJobsMessage (serverKey keySent reqFilter : Int)
    (rows : List JobRow) : List RespRow :=
  if keySent != serverKey then []
  else
    (if reqFilter == UNSET then rows
     else rows.filter (fun j => j.reqNum == reqFilter)).map renderJob
      ++ [jobsSentinel]

/-- A drive as presented by `infoDrivesMessage`. -/
structure DriveRow where
  id : String
  devname : String
  slot : Int
  status : String
  busy : Bool
deriving DecidableEq, Repr

/-- The setter calls of `infoDrivesMessage` for one drive. -/
def renderDrive (d : DriveRow) : RespRow :=
  [("id", .s d.id),
   ("devname", .s d.devname),
   ("slot", .n d.slot),
   ("status", .s d.status),
   ("busy", .b d.busy)]

/-- The sentinel row closing the drives stream. -/
def drivesSentinel : RespRow :=
  [("id", .s ""),
   ("devname", .s ""),
   ("slot", .n 0),
   ("status", .s ""),
   ("busy", .b false)]

/-- `MessageParser::infoDrivesMessage`. -/
def infoDrivesMessage (serverKey keySent : Int) (rows : List DriveRow) :
    List RespRow :=
  if keySent != serverKey then []
  else rows.map renderDrive ++ [drivesSentinel]

/-- A cartridge as presented by `infoTapesMessage`. -/
structure TapeRow where
  id : String
  slot : Int
  totalcap : Int
  remaincap : Int
  status : String
  inProgress : Int
  pool : String
  state : CartState
deriving DecidableEq, Repr

/-- The setter calls of `infoTapesMessage` for one cartridge. -/
def renderTape (c : TapeRow) : RespRow :=
  [("id", .s c.id),
   ("slot", .n c.slot),
   ("totalcap", .n c.totalcap),
   ("remaincap", .n c.remaincap),
   ("status", .s c.status),
   ("inprogress", .n c.inProgress),
   ("pool", .s c.pool),
   ("state", .s (cartStateStr c.state))]

/-- The sentinel row closing the tapes stream, exactly as the source writes
it: `set_status("")` is called twice and `set_state` is never called. -/
def tapesSentinel : RespRow :=
  [("id", .s ""),
   ("slot", .n 0),
   ("totalcap", .n 0),
   ("remaincap", .n 0),
   ("status", .s ""),
   ("inprogress", .n 0),
   ("pool", .s ""),
   ("status", .s "")]

/-- `MessageParser::infoTapesMessage`. -/
def infoTapesMessage (serverKey keySent : Int) (rows : List TapeRow) :
    List RespRow :=
  if keySent != serverKey then []
  else rows.map renderTape ++ [tapesSentinel]

/-- A pool with its member cartridges, as iterated by
`infoPoolsMessage`. -/
structure PoolEntry where
  name : String
  carts : List TapeRow
deriving DecidableEq, Repr

/-- The setter calls of `infoPoolsMessage` for one pool: capacity totals
summed over the member cartridges; `unref` is initialised to zero and never
updated in the source. -/
def renderPool (p : PoolEntry) : RespRow :=
  [("poolname", .s p.name),
   ("total", .n (p.carts.foldl (fun a c => a + c.totalcap) 0)),
   ("free", .n (p.carts.foldl (fun a c => a + c.remaincap) 0)),
   ("unref", .n 0),
   ("numtapes", .n p.carts.length)]

/-- The sentinel row closing the pools stream. -/
def poolsSentinel : RespRow :=
  [("poolname", .s ""),
   ("total", .n 0),
   ("free", .n 0),
   ("unref", .n 0),
   ("numtapes", .n 0)]

/-- `MessageParser::infoPoolsMessage`. -/
def infoPoolsMessage (serverKey keySent : Int) (rows : List PoolEntry) :
    List RespRow :=
  if keySent != serverKey then []
  else rows.map renderPool ++ [poolsSentinel]

/- ----------------------------------------------------------------- -/
/- MessageParser::run — the per-connection dispatcher                 -/
/- ----------------------------------------------------------------- -/

/-- `LTFSDmAddResp` response values (`SUCCESS`, `ALREADY_ADDED`,
`FAILED`). -/
def ADD_SUCCESS : Int := 0
def ADD_ALREADY_ADDED : Int := 1
def ADD_FAILED : Int := 2

/-- The discriminated union of top-level protocol messages handled by
`MessageParser::run`; each variant carries the session key sent by the
client.  The interactive parts of an exchange are carried as payload: the
queue snapshots seen by the polling loop of `stop`, and the object batches
streamed after a `mig`/`selrec` admission. -/
inductive Msg
  | reqnum (key : Int)
  | stop (key : Int) (req : StopReq) (laterSnapshots : List (List ReqState))
  | mig (key : Int) (reqNumber : Int) (tgtState : ReqState)
      (poolsField : String) (batches : List Batch)
  | selrec (key : Int) (reqNumber : Int) (tgtState : ReqState)
      (batches : List Batch)
  | status (key : Int)
  | add (key : Int) (managedFs : String) (alreadyManaged : Bool)
  | inforequests (key : Int) (reqFilter : Int)
  | infojobs (key : Int) (reqFilter : Int)
  | infodrives (key : Int)
  | infotapes (key : Int)
  | infopools (key : Int)
  | poolcreate (key : Int) (poolName : String)
  | pooldelete (key : Int) (poolName : String)
  | pooladd (key : Int) (poolName : String) (tapeids : List String)
  | poolremove (key : Int) (poolName : String) (tapeids : List String)
  | retrieve (key : Int)
deriving DecidableEq, Repr

/-- The session key carried by a message. -/
def msgKey : Msg → Int
  | .reqnum k => k
  | .stop k _ _ => k
  | .mig k _ _ _ _ => k
  | .selrec k _ _ _ => k
  | .status k => k
  | .add k _ _ => k
  | .inforequests k _ => k
  | .infojobs k _ => k
  | .infodrives k => k
  | .infotapes k => k
  | .infopools k => k
  | .poolcreate k _ => k
  | .pooldelete k _ => k
  | .pooladd k _ _ => k
  | .poolremove k _ _ => k
  | .retrieve k => k

/-- The server state a connection handler can observe or mutate: the
monotonic request counter, the termination flags, the two queue tables, the
inventory presentation rows, pool membership (a cartridge's `pool` field),
and the pool name list. -/
structure ServerState where
  pid : Int
  globalReqNumber : Int
  flags : ServerFlags
  requestRows : List RequestRow
  jobRows : List JobRow
  objState : ObjState
  driveRows : List DriveRow
  tapeRows : List TapeRow
  poolNames : List String
  inventorized : Bool
deriving DecidableEq, Repr

/-- Responses sent back on the connection. -/
inductive OutMsg
  | reqnumResp (success : Bool) (reqNumber : Int)
  | stopResp (success : Bool)
  | migReqResp (error : Int) (reqNumber : Int)
  | selRecReqResp (error : Int) (reqNumber : Int)
  | sendObjResp (success : Bool)
  | statusResp (success : Bool) (pid : Int)
  | addResp (response : Int)
  | infoResp (row : RespRow)
  | poolResp (response : Int)
  | poolTapeResp (tapeid : String) (response : Int)
  | retrieveResp (error : Int)
deriving DecidableEq, Repr

/-- The pools of the configuration as `PoolEntry` values (membership is the
cartridge's `pool` field). -/
def poolEntries (st : ServerState) : List PoolEntry :=
  st.poolNames.map (fun n => ⟨n, st.tapeRows.filter (fun c => c.pool == n)⟩)

/-- Modelled from the spec: `poolCreate` of the inventory is not in the
sources; section 7 names the *pool-exists* validation error. -/
def poolCreate (st : ServerState) (name : String) : ServerState × Int :=
  if st.poolNames.contains name then (st, LTFSDM_POOL_EXISTS)
  else ({ st with poolNames := st.poolNames ++ [name] }, LTFSDM_OK)

/-- Modelled from the spec: `poolDelete` of the inventory is not in the
sources; section 7 names the *pool-not-exists* and *pool-not-empty*
validation errors. -/
def poolDelete (st : ServerState) (name : String) : ServerState × Int :=
  if st.poolNames.contains name = false then (st, LTFSDM_POOL_NOT_EXISTS)
  else if st.tapeRows.any (fun c => c.pool == name) then (st, LTFSDM_POOL_NOT_EMPTY)
  else ({ st with poolNames := st.poolNames.filter (fun n => n != name) }, LTFSDM_OK)

/-- Modelled from the spec: `poolAdd` of the inventory is not in the
sources; a cartridge may belong to at most one pool (section 3), and
section 7 names the *tape-exists-in-pool*, *pool-not-exists* and
*tape-not-exists* validation errors. -/
def poolAddOne (st : ServerState) (name tid : String) : ServerState × Int :=
  if st.poolNames.contains name = false then (st, LTFSDM_POOL_NOT_EXISTS)
  else
    match st.tapeRows.find? (fun c => c.id == tid) with
    | none => (st, LTFSDM_TAPE_NOT_EXISTS)
    | some c =>
      if c.pool != "" then (st, LTFSDM_TAPE_EXISTS_IN_POOL)
      else
        ({ st with tapeRows := st.tapeRows.map (fun x =>
            if x.id == tid then { x with pool := name } else x) }, LTFSDM_OK)

/-- Modelled from the spec: `poolRemove` of the inventory is not in the
sources; section 7 names the *tape-not-exists-in-pool* validation error. -/
def poolRemoveOne (st : ServerState) (name tid : String) : ServerState × Int :=
  if st.poolNames.contains name = false then (st, LTFSDM_POOL_NOT_EXISTS)
  else
    match st.tapeRows.find? (fun c => c.id == tid) with
    | none => (st, LTFSDM_TAPE_NOT_EXISTS)
    | some c =>
      if c.pool != name then (st, LTFSDM_TAPE_NOT_EXISTS_IN_POOL)
      else
        ({ st with tapeRows := st.tapeRows.map (fun x =>
            if x.id == tid then { x with pool := "" } else x) }, LTFSDM_OK)

/-- The `pooladd`/`poolremove` loop over the tape ids: one `poolresp` per
tape id, each carrying the id and the per-tape validation result. -/
def poolLoop (f : ServerState → String → String → ServerState × Int)
    (st : ServerState) (name : String) : List String → ServerState × List OutMsg
  | [] => (st, [])
  | tid :: rest =>
    let r := f st name tid
    let t := poolLoop f r.1 name rest
    (t.1, OutMsg.poolTapeResp tid r.2 :: t.2)

/-- `MessageParser::run` dispatching one received message to its handler.
Every handler of the source first compares the key carried by the message
with the server's and returns, sending nothing and touching nothing, when
they differ; that structure is reproduced per branch.  The `mig` and
`selrec` branches run the receive-objects loop over the streamed batches on
a fresh job table (request numbers are unique, so the new request starts
with no job rows) and then add the request row (`addRequest`, modelled from
the spec: a `REQ_NEW` row is inserted).  The status-poll loop that follows
is not modelled. -/
def dispatch (serverKey : Int) (st : ServerState) : Msg → ServerState × List OutMsg
  | .reqnum k =>
    if k != serverKey then (st, [])
    else
      ({ st with globalReqNumber := st.globalReqNumber + 1 },
        [.reqnumResp true (st.globalReqNumber + 1)])
  | .stop k req later =>
    if k != serverKey then (st, [])
    else
      let f2 := stopSetFlags req st.flags
      ({ st with flags := f2 },
        (stopReplies f2 (st.requestRows.map (fun r => r.state) :: later)).map .stopResp)
  | .mig k reqNumber tgt poolsField batches =>
    match migrationMessage serverKey k st.flags.terminate
        (fun p => st.poolNames.contains p) poolsField with
    | none => (st, [])
    | some out =>
      if out.workerStarted then
        let g := getObjects st.flags ⟨[], []⟩ batches
        ({ st with
            objState := g.1
            requestRows := st.requestRows
              ++ [⟨DBOp.MIGRATION, reqNumber, none, tgt, ReqState.NEW⟩] },
          .migReqResp out.error reqNumber :: g.2.map .sendObjResp)
      else (st, [.migReqResp out.error reqNumber])
  | .selrec k reqNumber tgt batches =>
    if k != serverKey then (st, [])
    else if st.flags.terminate = false then
      let g := getObjects st.flags ⟨[], []⟩ batches
      ({ st with
          objState := g.1
          requestRows := st.requestRows
            ++ [⟨DBOp.SELRECALL, reqNumber, none, tgt, ReqState.NEW⟩] },
        .selRecReqResp LTFSDM_OK reqNumber :: g.2.map .sendObjResp)
    else (st, [.selRecReqResp LTFSDM_TERMINATING reqNumber])
  | .status k =>
    if k != serverKey then (st, [])
    else (st, [.statusResp true st.pid])
  | .add k _ alreadyManaged =>
    if k != serverKey then (st, [])
    else
      (st, [.addResp (if alreadyManaged then ADD_ALREADY_ADDED else ADD_SUCCESS)])
  | .inforequests k f =>
    (st, (infoRequestsMessage serverKey k f st.requestRows).map .infoResp)
  | .infojobs k f =>
    (st, (infoJobsMessage serverKey k f st.jobRows).map .infoResp)
  | .infodrives k =>
    (st, (infoDrivesMessage serverKey k st.driveRows).map .infoResp)
  | .infotapes k =>
    (st, (infoTapesMessage serverKey k st.tapeRows).map .infoResp)
  | .infopools k =>
    (st, (infoPoolsMessage serverKey k (poolEntries st)).map .infoResp)
  | .poolcreate k name =>
    if k != serverKey then (st, [])
    else
      let r := poolCreate st name
      (r.1, [.poolResp r.2])
  | .pooldelete k name =>
    if k != serverKey then (st, [])
    else
      let r := poolDelete st name
      (r.1, [.poolResp r.2])
  | .pooladd k name tids =>
    if k != serverKey then (st, [])
    else poolLoop poolAddOne st name tids
  | .poolremove k name tids =>
    if k != serverKey then (st, [])
    else poolLoop poolRemoveOne st name tids
  | .retrieve k =>
    if k != serverKey then (st, [])
    else ({ st with inventorized := true }, [.retrieveResp LTFSDM_OK])

/- ----------------------------------------------------------------- -/
/- Theorems                                                           -/
/- ----------------------------------------------------------------- -/

/-- C1 (counterexample): the claim fails for the forced flag: on a server
with one `INPROGRESS` row, a `stop{forced=true}` makes the handler skip the
queue scan (`numreqs` stays 0), so the very first reply carries
`success=true` while an `INPROGRESS` row remains. -/
theorem stop_forced_success_despite_inprogress :
    stopRespSuccess (stopSetFlags ⟨true, false⟩ ⟨false, false, false⟩)
        [ReqState.INPROGRESS] = true
    ∧ countInProgress [ReqState.INPROGRESS] ≠ 0 := by
  decide

/-- C1 (amended): when neither `forcedTerminate` nor `finishTerminate` is
set, a `stopresp` with `success=true` is only sent when the request-queue
snapshot of that iteration has zero `INPROGRESS` rows. -/
theorem stop_success_no_inprogress (f : ServerFlags) (q : List ReqState)
    (hforced : f.forcedTerminate = false) (hfinish : f.finishTerminate = false)
    (h : stopRespSuccess f q = true) : countInProgress q = 0 := by
  simpa [stopRespSuccess, stopNumReqs, hforced, hfinish] using h

/-- C1 (witness): the amended theorem applied to a queue with no
`INPROGRESS` rows on a server stopping without flags. -/
theorem stop_success_no_inprogress_witness :
    stopRespSuccess ⟨true, false, false⟩ [ReqState.NEW, ReqState.COMPLETED] = true
    ∧ countInProgress [ReqState.NEW, ReqState.COMPLETED] = 0 :=
  ⟨by decide,
    stop_success_no_inprogress ⟨true, false, false⟩
      [ReqState.NEW, ReqState.COMPLETED] rfl rfl (by decide)⟩

/-- C3 (counterexample): a migration request whose `pools` field is the
empty string parses to zero pool names, passes validation with
`error = LTFSDM_OK`, and starts a worker with `numRepl = 0`, outside the
claimed set `{1,2,3}`. -/
theorem migration_empty_pools_numrepl_zero :
    migrationMessage 1 1 false (fun _ => false) "" =
      some ⟨LTFSDM_OK, 0, true⟩ := by
  rfl

/-- The distinct pool names accumulated by the validation loop of
`migrationMessage` (the contents of its `std::set` in insertion order). -/
def distinctPools (l : List String) : List String :=
  l.foldl (fun acc p => if p ∈ acc then acc else acc ++ [p]) []

/-- When every parsed pool exists, the validation loop completes without
error and collects exactly the distinct pool names. -/
theorem collectPools_all_exist (exist : String → Bool) (l : List String)
    (h : ∀ p ∈ l, exist p = true) (acc : List String) :
    collectPools exist acc l =
      (LTFSDM_OK, l.foldl (fun a p => if p ∈ a then a else a ++ [p]) acc) := by
  induction l generalizing acc with
  | nil => simp [collectPools]
  | cons p rest ih =>
    have hp : exist p = true := h p (List.mem_cons_self p rest)
    simp [collectPools, hp]
    exact ih (fun q hq => h q (List.mem_cons_of_mem p hq)) _

/-- The reply of `migrationMessage` on a matching key and a non-terminating
server, as determined by the result of the validation loop. -/
theorem migrationMessage_eq (serverKey : Int) (exist : String → Bool)
    (pf : String) (e : Int) (acc : List String)
    (hcp : collectPools exist [] (splitPools pf) = (e, acc)) :
    migrationMessage serverKey serverKey false exist pf =
      some ⟨if e == LTFSDM_OK && decide (acc.length > 3) then
              LTFSDM_WRONG_POOLNUM else e,
            acc.length,
            (if e == LTFSDM_OK && decide (acc.length > 3) then
              LTFSDM_WRONG_POOLNUM else e) == LTFSDM_OK⟩ := by
  rw [migrationMessage]
  simp [hcp]

/-- C3 (amended): for every migration request handled with a matching key
on a non-terminating server, `numRepl` is at most 3 whenever a worker is
started (it can be 0 for an empty pools field); and a request naming more
than three distinct pools, all of which exist, is answered with
`LTFSDM_WRONG_POOLNUM` and no worker is started. -/
theorem migration_poolnum (serverKey : Int) (exist : String → Bool)
    (pf : String) (out : MigOutcome)
    (h : migrationMessage serverKey serverKey false exist pf = some out) :
    (out.workerStarted = true → out.numRepl ≤ 3)
    ∧ ((∀ p ∈ splitPools pf, exist p = true) →
        3 < (distinctPools (splitPools pf)).length →
        out.error = LTFSDM_WRONG_POOLNUM ∧ out.workerStarted = false) := by
  rcases hcp : collectPools exist [] (splitPools pf) with ⟨e, acc⟩
  rw [migrationMessage_eq serverKey exist pf e acc hcp] at h
  have hout := (Option.some.injEq _ _).mp h
  subst hout
  constructor
  · intro hw
    by_cases hgt : 3 < acc.length
    · exfalso
      by_cases he : e = LTFSDM_OK
      · subst he
        simp [hgt, LTFSDM_OK, LTFSDM_WRONG_POOLNUM] at hw
      · have hbe : (e == LTFSDM_OK) = false := by
          simp [he]
        simp [hbe, he] at hw
    · simpa using Nat.le_of_not_lt hgt
  · intro hex hgt
    have hall := collectPools_all_exist exist (splitPools pf) hex []
    rw [hcp] at hall
    have he : e = LTFSDM_OK := congrArg Prod.fst hall
    have ha : acc = distinctPools (splitPools pf) := by
      have := congrArg Prod.snd hall
      simpa [distinctPools] using this
    have hgt' : 3 < acc.length := by
      rw [ha]
      exact hgt
    subst he
    simp [hgt', LTFSDM_OK, LTFSDM_WRONG_POOLNUM]

/-- C3 (witness): the amended theorem applied to a request naming four
distinct existing pools. -/
theorem migration_poolnum_witness :
    migrationMessage 1 1 false (fun _ => true) "a,b,c,d"
      = some ⟨LTFSDM_WRONG_POOLNUM, 4, false⟩
    ∧ ((⟨LTFSDM_WRONG_POOLNUM, 4, false⟩ : MigOutcome).error = LTFSDM_WRONG_POOLNUM
        ∧ (⟨LTFSDM_WRONG_POOLNUM, 4, false⟩ : MigOutcome).workerStarted = false) :=
  ⟨by decide,
    (migration_poolnum 1 (fun _ => true) "a,b,c,d"
        ⟨LTFSDM_WRONG_POOLNUM, 4, false⟩ (by decide)).2
      (by decide) (by decide)⟩

/-- If some parsed pool name does not exist, the validation loop ends with
`LTFSDM_NOT_ALL_POOLS_EXIST`. -/
theorem collectPools_missing (exist : String → Bool) (l : List String)
    (p : String) (hmem : p ∈ l) (hne : exist p = false) (acc : List String) :
    (collectPools exist acc l).1 = LTFSDM_NOT_ALL_POOLS_EXIST := by
  induction l generalizing acc with
  | nil => cases hmem
  | cons q rest ih =>
    by_cases hq : exist q = false
    · simp [collectPools, hq]
    · have hq' : exist q = true := by
        cases h : exist q
        · exact absurd h hq
        · rfl
      have hp : p ∈ rest := by
        rcases List.mem_cons.mp hmem with h | h
        · subst h; rw [hq'] at hne; cases hne
        · exact h
      simp [collectPools, hq']
      exact ih hp _

/-- C4: a migration request handled with a matching key on a
non-terminating server whose pools field names a pool absent from the
inventory is answered with `LTFSDM_NOT_ALL_POOLS_EXIST` and aborted before
any worker exists: the server state is unchanged (no job insertions, no
request row) and the only response is the error reply. -/
theorem migration_missing_pool (serverKey : Int) (st : ServerState)
    (reqNumber : Int) (tgt : ReqState) (pf : String) (batches : List Batch)
    (p : String) (hterm : st.flags.terminate = false)
    (hmem : p ∈ splitPools pf) (hne : st.poolNames.contains p = false) :
    dispatch serverKey st (.mig serverKey reqNumber tgt pf batches)
      = (st, [.migReqResp LTFSDM_NOT_ALL_POOLS_EXIST reqNumber]) := by
  rcases hcp : collectPools (fun q => st.poolNames.contains q) []
      (splitPools pf) with ⟨e, acc⟩
  have herr : e = LTFSDM_NOT_ALL_POOLS_EXIST := by
    have h2 := collectPools_missing (fun q => st.poolNames.contains q)
      (splitPools pf) p hmem hne []
    rw [hcp] at h2
    exact h2
  subst herr
  have hmm := migrationMessage_eq serverKey (fun q => st.poolNames.contains q)
    pf _ acc hcp
  simp only [dispatch]
  rw [hterm, hmm]
  simp [LTFSDM_NOT_ALL_POOLS_EXIST, LTFSDM_OK]

/-- C4 (witness): a migration naming only the pool `ghost`, which is not in
the inventory, on a concrete server with one pool `p1`. -/
theorem migration_missing_pool_witness :
    dispatch 1
        ⟨1, 0, ⟨false, false, false⟩, [], [], ⟨[], []⟩, [], [], ["p1"], false⟩
        (.mig 1 7 ReqState.NEW "ghost" [])
      = (⟨1, 0, ⟨false, false, false⟩, [], [], ⟨[], []⟩, [], [], ["p1"], false⟩,
          [.migReqResp LTFSDM_NOT_ALL_POOLS_EXIST 7]) :=
  migration_missing_pool 1 _ 7 ReqState.NEW "ghost" [] "ghost" rfl
    (by decide) (by decide)

/-- C10: evaluating the first loop of `poolResAvail` at a pool whose member
`ghost` is absent from the inventory: the source removes the member from
the configuration but then reads `cart->getState()` through the null
handle, modelled as the error outcome. -/
theorem poolResAvail_null_deref :
    poolResAvailScan [] [] 0 false ["ghost"] = .error () := by
  rfl

/-- Properties of one pass of the per-batch filename loop: the job table
and the diagnostics only grow, every non-empty filename of the batch ends
up in the job table, and a non-empty filename already present when the
loop reaches it is reported as a duplicate. -/
theorem processFiles_props (term : Bool) (fns : List String) :
    ∀ (st : ObjState) (cont : Bool) (st2 : ObjState) (c2 : Bool),
      processFiles term st cont fns = some (st2, c2) →
        (∀ x, x ∈ st.jobs → x ∈ st2.jobs)
        ∧ (∀ d, d ∈ st.diags → d ∈ st2.diags)
        ∧ (∀ g, g ∈ fns → g ≠ "" → g ∈ st2.jobs)
        ∧ (∀ g, g ∈ fns → g ≠ "" → g ∈ st.jobs → Diag.duplicate g ∈ st2.diags) := by
  induction fns with
  | nil =>
    intro st cont st2 c2 h
    simp only [processFiles, Option.some.injEq, Prod.mk.injEq] at h
    obtain ⟨h1, h2⟩ := h
    subst h1
    exact ⟨fun x hx => hx, fun d hd => hd, by simp, by simp⟩
  | cons fn rest ih =>
    intro st cont st2 c2 h
    cases term with
    | true => simp [processFiles] at h
    | false =>
      by_cases hfn : fn = ""
      · subst hfn
        simp only [processFiles, if_false, ne_eq, not_true_eq_false,
          Bool.false_eq_true, reduceIte] at h
        obtain ⟨hjm, hdm, hins, hdupd⟩ := ih st false st2 c2 h
        refine ⟨hjm, hdm, ?_, ?_⟩
        · intro g hg hgne
          rcases List.mem_cons.mp hg with hg | hg
          · exact absurd hg hgne
          · exact hins g hg hgne
        · intro g hg hgne hgj
          rcases List.mem_cons.mp hg with hg | hg
          · exact absurd hg hgne
          · exact hdupd g hg hgne hgj
      · by_cases hdup : fn ∈ st.jobs
        · have haj : addJob st.jobs fn = .error SQLITE_CONSTRAINT_UNIQUE := by
            simp [addJob, hdup]
          simp only [processFiles, hfn, haj, Bool.false_eq_true, reduceIte,
            ne_eq, not_false_eq_true, if_true, SQLITE_CONSTRAINT_UNIQUE,
            SQLITE_CONSTRAINT_PRIMARYKEY] at h
          norm_num at h
          obtain ⟨hjm, hdm, hins, hdupd⟩ :=
            ih { st with diags := st.diags ++ [Diag.duplicate fn] } cont st2 c2 h
          refine ⟨hjm, ?_, ?_, ?_⟩
          · intro d hd
            exact hdm d (by simp [hd])
          · intro g hg hgne
            rcases List.mem_cons.mp hg with hg | hg
            · subst hg
              exact hjm g hdup
            · exact hins g hg hgne
          · intro g hg hgne hgj
            rcases List.mem_cons.mp hg with hg | hg
            · subst hg
              exact hdm (Diag.duplicate g) (by simp)
            · exact hdupd g hg hgne hgj
        · have haj : addJob st.jobs fn = .ok (st.jobs ++ [fn]) := by
            simp [addJob, hdup]
          simp only [processFiles, hfn, haj, Bool.false_eq_true, reduceIte,
            ne_eq, not_false_eq_true, if_true] at h
          obtain ⟨hjm, hdm, hins, hdupd⟩ :=
            ih { st with jobs := st.jobs ++ [fn] } cont st2 c2 h
          refine ⟨?_, hdm, ?_, ?_⟩
          · intro x hx
            exact hjm x (by simp [hx])
          · intro g hg hgne
            rcases List.mem_cons.mp hg with hg | hg
            · subst hg
              exact hjm g (by simp)
            · exact hins g hg hgne
          · intro g hg hgne hgj
            rcases List.mem_cons.mp hg with hg | hg
            · subst hg
              exact absurd hgj hdup
            · exact hdupd g hg hgne (by simp [hgj])

/-- With `Server::terminate` unset the per-batch filename loop always runs
to completion. -/
theorem processFiles_total (fns : List String) :
    ∀ (st : ObjState) (cont : Bool),
      ∃ r, processFiles false st cont fns = some r := by
  induction fns with
  | nil =>
    intro st cont
    exact ⟨(st, cont), rfl⟩
  | cons fn rest ih =>
    intro st cont
    by_cases hfn : fn = ""
    · subst hfn
      simpa [processFiles] using ih st false
    · by_cases hdup : fn ∈ st.jobs
      · have haj : addJob st.jobs fn = .error SQLITE_CONSTRAINT_UNIQUE := by
          simp [addJob, hdup]
        simpa [processFiles, hfn, haj, SQLITE_CONSTRAINT_UNIQUE,
          SQLITE_CONSTRAINT_PRIMARYKEY] using
          ih { st with diags := st.diags ++ [Diag.duplicate fn] } cont
      · have haj : addJob st.jobs fn = .ok (st.jobs ++ [fn]) := by
          simp [addJob, hdup]
        simpa [processFiles, hfn, haj] using
          ih { st with jobs := st.jobs ++ [fn] } cont

/-- Every `sendobjectsresp` sent by the receive-objects loop reports
success (the `success` flag is initialised true and never cleared). -/
theorem getObjects_success_true (f : ServerFlags) (bs : List Batch) :
    ∀ (st : ObjState) (r : Bool), r ∈ (getObjects f st bs).2 → r = true := by
  induction bs with
  | nil =>
    intro st r hr
    simp [getObjects] at hr
  | cons b rest ih =>
    intro st r hr
    rw [getObjects] at hr
    cases hft : f.forcedTerminate with
    | true => simp [hft] at hr
    | false =>
      rw [hft] at hr
      simp only [Bool.false_eq_true, reduceIte] at hr
      cases hpf : processFiles f.terminate st true b.filenames with
      | none => rw [hpf] at hr; simp at hr
      | some p =>
        rw [hpf] at hr
        cases hc : p.2 with
        | true =>
          rcases p with ⟨st2, c2⟩
          simp only at hc
          subst hc
          simp only [reduceIte] at hr
          rcases List.mem_cons.mp hr with hr | hr
          · exact hr
          · exact ih st2 r hr
        | false =>
          rcases p with ⟨st2, c2⟩
          simp only at hc
          subst hc
          simp only [Bool.false_eq_true, reduceIte] at hr
          simpa using hr

/-- The job table and diagnostics only grow across the receive-objects
loop. -/
theorem getObjects_mono (f : ServerFlags) (bs : List Batch) :
    ∀ (st : ObjState),
      (∀ x, x ∈ st.jobs → x ∈ (getObjects f st bs).1.jobs)
      ∧ (∀ d, d ∈ st.diags → d ∈ (getObjects f st bs).1.diags) := by
  induction bs with
  | nil =>
    intro st
    simp [getObjects]
  | cons b rest ih =>
    intro st
    rw [getObjects]
    cases hft : f.forcedTerminate with
    | true => simp
    | false =>
      simp only [Bool.false_eq_true, reduceIte]
      cases hpf : processFiles f.terminate st true b.filenames with
      | none => simp
      | some p =>
        rcases p with ⟨st2, c2⟩
        obtain ⟨hjm, hdm, _, _⟩ := processFiles_props f.terminate b.filenames st true st2 c2 hpf
        cases c2 with
        | true =>
          simp only [reduceIte]
          obtain ⟨hjm2, hdm2⟩ := ih st2
          exact ⟨fun x hx => hjm2 x (hjm x hx), fun d hd => hdm2 d (hdm d hd)⟩
        | false =>
          simp only [Bool.false_eq_true, reduceIte]
          exact ⟨hjm, hdm⟩

/-- C5: in the receive-objects loop, a non-empty filename whose insertion
fails the store's uniqueness constraint is reported as a per-file duplicate
diagnostic (LTFSDMS0019E), the loop is not aborted (every other non-empty
filename of the batch is still inserted into the job table), and the
batch's `sendobjectsresp` — like every response the loop sends — still
carries `success=true`. -/
theorem duplicate_job_reported_not_fatal (jobs : List String)
    (diags : List Diag) (k : Int) (fns : List String) (rest : List Batch)
    (fn : String) (hdup : fn ∈ jobs) (hmem : fn ∈ fns) (hne : fn ≠ "") :
    Diag.duplicate fn
        ∈ (getObjects ⟨false, false, false⟩ ⟨jobs, diags⟩ (⟨k, fns⟩ :: rest)).1.diags
    ∧ (getObjects ⟨false, false, false⟩ ⟨jobs, diags⟩ (⟨k, fns⟩ :: rest)).2.head?
        = some true
    ∧ (∀ r ∈ (getObjects ⟨false, false, false⟩ ⟨jobs, diags⟩ (⟨k, fns⟩ :: rest)).2,
        r = true)
    ∧ (∀ g ∈ fns, g ≠ "" →
        g ∈ (getObjects ⟨false, false, false⟩ ⟨jobs, diags⟩ (⟨k, fns⟩ :: rest)).1.jobs) := by
  obtain ⟨⟨st2, c2⟩, hpf⟩ := processFiles_total fns ⟨jobs, diags⟩ true
  obtain ⟨hjm, hdm, hins, hdupd⟩ := processFiles_props false fns ⟨jobs, diags⟩ true st2 c2 hpf
  have hd : Diag.duplicate fn ∈ st2.diags := hdupd fn hmem hne hdup
  have hR : getObjects ⟨false, false, false⟩ ⟨jobs, diags⟩ (⟨k, fns⟩ :: rest)
      = if c2 then
          ((getObjects ⟨false, false, false⟩ st2 rest).1,
            true :: (getObjects ⟨false, false, false⟩ st2 rest).2)
        else (st2, [true]) := by
    rw [getObjects]
    simp [hpf]
  refine ⟨?_, ?_, fun r hr => getObjects_success_true _ _ _ r hr, ?_⟩
  · rw [hR]
    cases c2 with
    | true =>
      simp only [reduceIte]
      exact (getObjects_mono ⟨false, false, false⟩ rest st2).2 _ hd
    | false =>
      simpa using hd
  · rw [hR]
    cases c2 <;> simp
  · intro g hg hgne
    rw [hR]
    cases c2 with
    | true =>
      simp only [reduceIte]
      exact (getObjects_mono ⟨false, false, false⟩ rest st2).1 g (hins g hg hgne)
    | false =>
      simpa using hins g hg hgne

/-- C5 (witness): the scenario of the spec — the filename `/m/a` arrives a
second time for the same request: a duplicate diagnostic is recorded and
the batch is still acknowledged with success. -/
theorem duplicate_job_reported_not_fatal_witness :
    ("/m/a" ∈ (["/m/a"] : List String))
    ∧ Diag.duplicate "/m/a"
        ∈ (getObjects ⟨false, false, false⟩ ⟨["/m/a"], []⟩
            [⟨7, ["/m/a", ""]⟩]).1.diags :=
  ⟨by decide,
    (duplicate_job_reported_not_fatal ["/m/a"] [] 7 ["/m/a", ""] [] "/m/a"
      (by decide) (by decide) (by decide)).1⟩

/-- C2 (amended): every top-level message variant handled by
`MessageParser::run` first compares the session key carried by the message
with the server's and, on a mismatch, returns without sending any response
and without touching any server state. -/
theorem dispatch_key_mismatch (serverKey : Int) (st : ServerState) (m : Msg)
    (h : msgKey m ≠ serverKey) : dispatch serverKey st m = (st, []) := by
  cases m <;>
    simp_all [dispatch, msgKey, migrationMessage, infoRequestsMessage,
      infoJobsMessage, infoDrivesMessage, infoTapesMessage, infoPoolsMessage,
      bne_iff_ne]

/-- C2 (witness): a status request carrying key 2 against server key 1 is
dropped with no response and no state change. -/
theorem dispatch_key_mismatch_witness :
    msgKey (Msg.status 2) ≠ 1
    ∧ dispatch 1
        ⟨1, 0, ⟨false, false, false⟩, [], [], ⟨[], []⟩, [], [], [], false⟩
        (Msg.status 2)
      = (⟨1, 0, ⟨false, false, false⟩, [], [], ⟨[], []⟩, [], [], [], false⟩, []) :=
  ⟨by decide, dispatch_key_mismatch 1 _ _ (by decide)⟩

/-- C2 (counterexample): a `sendobjects` batch inside the receive-objects
loop is processed without any key comparison: under server key 1, a batch
carrying key 2 inside an admitted migration still has its filename inserted
as a job. -/
theorem sendobjects_batch_ignores_key :
    (2 : Int) ≠ 1
    ∧ (dispatch 1
          ⟨1, 0, ⟨false, false, false⟩, [], [], ⟨[], []⟩, [], [], ["p1"], false⟩
          (.mig 1 7 ReqState.NEW "p1" [⟨2, ["/m/a", ""]⟩])).1.objState.jobs
        = ["/m/a"] := by
  exact ⟨by decide, by decide⟩

/-- `DataBase::opStr` never yields the empty string. -/
theorem opStr_ne_empty (o : DBOp) : opStr o ≠ "" := by
  cases o <;> decide

/-- A rendered request row never coincides with the requests sentinel: its
operation string is nonempty. -/
theorem renderRequest_ne_sentinel (r : RequestRow) :
    renderRequest r ≠ requestsSentinel := by
  intro h
  simp only [renderRequest, requestsSentinel, List.cons.injEq,
    Prod.mk.injEq, FieldVal.s.injEq] at h
  exact opStr_ne_empty r.op h.1.2

/-- A rendered job row never coincides with the jobs sentinel. -/
theorem renderJob_ne_sentinel (j : JobRow) :
    renderJob j ≠ jobsSentinel := by
  intro h
  simp only [renderJob, jobsSentinel, List.cons.injEq,
    Prod.mk.injEq, FieldVal.s.injEq] at h
  exact opStr_ne_empty j.op h.1.2

/-- A rendered tape row never coincides with the tapes sentinel: the row
writes a `state` field where the sentinel writes `status` twice. -/
theorem renderTape_ne_sentinel (c : TapeRow) :
    renderTape c ≠ tapesSentinel := by
  intro h
  simp only [renderTape, tapesSentinel, List.cons.injEq, Prod.mk.injEq] at h
  exact (by decide : ("state" : String) ≠ "status") h.2.2.2.2.2.2.2.1.1

/-- A rendered drive row with a nonempty drive id never coincides with the
drives sentinel. -/
theorem renderDrive_ne_sentinel (d : DriveRow) (hid : d.id ≠ "") :
    renderDrive d ≠ drivesSentinel := by
  intro h
  simp only [renderDrive, drivesSentinel, List.cons.injEq,
    Prod.mk.injEq, FieldVal.s.injEq] at h
  exact hid h.1.2

/-- A rendered pool row with a nonempty pool name never coincides with the
pools sentinel. -/
theorem renderPool_ne_sentinel (p : PoolEntry) (hname : p.name ≠ "") :
    renderPool p ≠ poolsSentinel := by
  intro h
  simp only [renderPool, poolsSentinel, List.cons.injEq,
    Prod.mk.injEq, FieldVal.s.injEq] at h
  exact hname h.1.2

/-- A list followed by one sentinel it does not otherwise contain holds the
sentinel exactly once. -/
theorem count_append_sentinel {α : Type} [BEq α] [LawfulBEq α]
    (l : List α) (a : α) (h : ∀ x ∈ l, x ≠ a) : (l ++ [a]).count a = 1 := by
  rw [List.count_append]
  have hz : l.count a = 0 := by
    rw [List.count_eq_zero]
    intro hmem
    exact h a hmem rfl
  simp [hz]

/-- The sentinel appended after the data rows is the stream's last
message. -/
theorem getLast_append_sentinel {α : Type} (l : List α) (a : α) :
    (l ++ [a]).getLast? = some a := by
  rw [List.getLast?_concat]

/-- C9 (amended): every info stream sent with a matching key is terminated
by exactly one sentinel row, its last message; the requests and jobs
sentinels carry empty strings and `UNSET` numerics, while the drives, tapes
and pools sentinels carry empty strings and zero numerics; the tapes
sentinel writes its `status` field twice (both empty) and never writes
`state`.  (Drives and pools streams additionally assume nonempty ids and
pool names, otherwise an all-default data row would be indistinguishable
from the sentinel.) -/
theorem info_streams_sentinel (sk reqF : Int) (reqs : List RequestRow)
    (jobs : List JobRow) (drvs : List DriveRow) (tps : List TapeRow)
    (pls : List PoolEntry)
    (hdrv : ∀ d ∈ drvs, d.id ≠ "") (hpl : ∀ p ∈ pls, p.name ≠ "") :
    ((infoRequestsMessage sk sk reqF reqs).count requestsSentinel = 1
      ∧ (infoRequestsMessage sk sk reqF reqs).getLast? = some requestsSentinel)
    ∧ ((infoJobsMessage sk sk reqF jobs).count jobsSentinel = 1
      ∧ (infoJobsMessage sk sk reqF jobs).getLast? = some jobsSentinel)
    ∧ ((infoDrivesMessage sk sk drvs).count drivesSentinel = 1
      ∧ (infoDrivesMessage sk sk drvs).getLast? = some drivesSentinel)
    ∧ ((infoTapesMessage sk sk tps).count tapesSentinel = 1
      ∧ (infoTapesMessage sk sk tps).getLast? = some tapesSentinel)
    ∧ ((infoPoolsMessage sk sk pls).count poolsSentinel = 1
      ∧ (infoPoolsMessage sk sk pls).getLast? = some poolsSentinel)
    ∧ (requestsSentinel.all (fun kv => kv.2 == .s "" || kv.2 == .n UNSET)
        && jobsSentinel.all (fun kv => kv.2 == .s "" || kv.2 == .n UNSET)
        && drivesSentinel.all
            (fun kv => kv.2 == .s "" || kv.2 == .n 0 || kv.2 == .b false)
        && tapesSentinel.all (fun kv => kv.2 == .s "" || kv.2 == .n 0)
        && poolsSentinel.all (fun kv => kv.2 == .s "" || kv.2 == .n 0)) = true
    ∧ tapesSentinel.countP (fun kv => kv.1 == "status") = 2
    ∧ tapesSentinel.countP (fun kv => kv.1 == "state") = 0 := by
  refine ⟨⟨?_, ?_⟩, ⟨?_, ?_⟩, ⟨?_, ?_⟩, ⟨?_, ?_⟩, ⟨?_, ?_⟩, by decide, by decide, by decide⟩
  · rw [infoRequestsMessage, if_neg (by simp)]
    refine count_append_sentinel _ _ ?_
    intro x hx
    obtain ⟨r, _, rfl⟩ := List.mem_map.mp hx
    exact renderRequest_ne_sentinel r
  · rw [infoRequestsMessage, if_neg (by simp)]
    exact getLast_append_sentinel _ _
  · rw [infoJobsMessage, if_neg (by simp)]
    refine count_append_sentinel _ _ ?_
    intro x hx
    obtain ⟨j, _, rfl⟩ := List.mem_map.mp hx
    exact renderJob_ne_sentinel j
  · rw [infoJobsMessage, if_neg (by simp)]
    exact getLast_append_sentinel _ _
  · rw [infoDrivesMessage, if_neg (by simp)]
    refine count_append_sentinel _ _ ?_
    intro x hx
    obtain ⟨d, hd, rfl⟩ := List.mem_map.mp hx
    exact renderDrive_ne_sentinel d (hdrv d hd)
  · rw [infoDrivesMessage, if_neg (by simp)]
    exact getLast_append_sentinel _ _
  · rw [infoTapesMessage, if_neg (by simp)]
    refine count_append_sentinel _ _ ?_
    intro x hx
    obtain ⟨c, _, rfl⟩ := List.mem_map.mp hx
    exact renderTape_ne_sentinel c
  · rw [infoTapesMessage, if_neg (by simp)]
    exact getLast_append_sentinel _ _
  · rw [infoPoolsMessage, if_neg (by simp)]
    refine count_append_sentinel _ _ ?_
    intro x hx
    obtain ⟨p, hp, rfl⟩ := List.mem_map.mp hx
    exact renderPool_ne_sentinel p (hpl p hp)
  · rw [infoPoolsMessage, if_neg (by simp)]
    exact getLast_append_sentinel _ _

/-- C9 (witness): the amended theorem applied to empty tables. -/
theorem info_streams_sentinel_witness :
    (infoRequestsMessage 1 1 UNSET []).count requestsSentinel = 1 :=
  (info_streams_sentinel 1 UNSET [] [] [] [] [] (by simp) (by simp)).1.1

/-- C9 (counterexample): the tapes sentinel does not carry a `state` field
(the source sets `status` twice instead), and its numeric fields are zero,
not `UNSET`. -/
theorem tapes_sentinel_missing_state :
    (infoTapesMessage 1 1 []).getLast? = some tapesSentinel
    ∧ tapesSentinel.countP (fun kv => kv.1 == "state") = 0
    ∧ ("slot", FieldVal.n 0) ∈ tapesSentinel
    ∧ (0 : Int) ≠ UNSET := by
  decide

/-- Updating a record through the handle found by an id lookup is observed
by a later lookup with the same id, provided the update leaves the id
unchanged. -/
theorem getDrive_updateDrive (drives : List Drive) (did : String)
    (f : Drive → Drive) (d : Drive) (hid : ∀ x, (f x).id = x.id)
    (h : getDrive drives did = some d) :
    getDrive (updateDrive drives did f) did = some (f d) := by
  induction drives with
  | nil => simp [getDrive] at h
  | cons d0 rest ih =>
    by_cases h0 : (d0.id == did) = true
    · rw [getDrive, List.find?] at h
      rw [h0] at h
      simp only [Option.some.injEq] at h
      subst h
      rw [updateDrive]
      rw [if_pos h0]
      rw [getDrive, List.find?]
      have : ((f d0).id == did) = true := by
        rw [hid d0]
        exact h0
      rw [this]
    · have h0' : (d0.id == did) = false := by
        simp only [Bool.not_eq_true] at h0
        exact h0
      rw [getDrive, List.find?] at h
      rw [h0'] at h
      rw [updateDrive, if_neg (by simp [h0'])]
      rw [getDrive, List.find?, h0']
      exact ih h

/-- Counterpart of the previous lemma for cartridges. -/
theorem getCartridge_updateCart (carts : List Cartridge) (tid : String)
    (f : Cartridge → Cartridge) (c : Cartridge) (hid : ∀ x, (f x).id = x.id)
    (h : getCartridge carts tid = some c) :
    getCartridge (updateCart carts tid f) tid = some (f c) := by
  induction carts with
  | nil => simp [getCartridge] at h
  | cons c0 rest ih =>
    by_cases h0 : (c0.id == tid) = true
    · rw [getCartridge, List.find?] at h
      rw [h0] at h
      simp only [Option.some.injEq] at h
      subst h
      rw [updateCart]
      rw [if_pos h0]
      rw [getCartridge, List.find?]
      have : ((f c0).id == tid) = true := by
        rw [hid c0]
        exact h0
      rw [this]
    · have h0' : (c0.id == tid) = false := by
        simp only [Bool.not_eq_true] at h0
        exact h0
      rw [getCartridge, List.find?] at h
      rw [h0'] at h
      rw [updateCart, if_neg (by simp [h0'])]
      rw [getCartridge, List.find?, h0']
      exact ih h

/-- C6: when the cartridge of a tape-specific request is `MOUNTED`,
`tapeResAvail` reserves the first drive whose slot equals the cartridge's:
it marks that drive busy and the cartridge `INUSE`, records the drive id in
the scheduler's `driveId`, and reports the resource available. -/
theorem tapeResAvail_mounted (st : SchedState) (c : Cartridge) (d : Drive)
    (hc : getCartridge st.carts st.tapeId = some c)
    (hm : c.state = CartState.MOUNTED)
    (hd : st.drives.find? (fun x => x.slot == c.slot) = some d)
    (hgd : getDrive st.drives d.id = some d) :
    (tapeResAvail st).avail = true
    ∧ (tapeResAvail st).driveId = d.id
    ∧ getDrive (tapeResAvail st).drives d.id = some { d with busy := true }
    ∧ getCartridge (tapeResAvail st).carts st.tapeId
        = some { c with state := CartState.INUSE } := by
  have hres : tapeResAvail st =
      ⟨true, (makeUse st.drives st.carts d.id st.tapeId).1,
        (makeUse st.drives st.carts d.id st.tapeId).2, d.id, []⟩ := by
    rw [tapeResAvail, hc]
    simp [hm, hd]
  rw [hres]
  exact ⟨rfl, rfl,
    getDrive_updateDrive st.drives d.id _ d (fun x => rfl) hgd,
    getCartridge_updateCart st.carts st.tapeId _ c (fun x => rfl) hc⟩

/-- C6 (witness): cartridge `T1` mounted in the slot of drive `D0`. -/
theorem tapeResAvail_mounted_witness :
    (tapeResAvail ⟨[⟨"D0", 3, false, UNSET, "", DBOp.UNMOUNT⟩],
        [⟨"T1", 3, CartState.MOUNTED, false, 100⟩],
        DBOp.SELRECALL, 5, "", "T1", "", TMOp.MOUNT⟩).avail = true :=
  (tapeResAvail_mounted
      ⟨[⟨"D0", 3, false, UNSET, "", DBOp.UNMOUNT⟩],
        [⟨"T1", 3, CartState.MOUNTED, false, 100⟩],
        DBOp.SELRECALL, 5, "", "T1", "", TMOp.MOUNT⟩
      ⟨"T1", 3, CartState.MOUNTED, false, 100⟩
      ⟨"D0", 3, false, UNSET, "", DBOp.UNMOUNT⟩
      (by decide) rfl (by decide) (by decide)).1

/-- The suspend loop leaves the drives untouched when no drive has a
`toUnblock` above the current operation's priority value. -/
theorem suspendStage_none (o : DBOp) (l : List Drive)
    (h : ∀ x ∈ l, ¬ opCode o < opCode x.toUnblock) :
    suspendStage o l = (l, false) := by
  induction l with
  | nil => rfl
  | cons d rest ih =>
    have hd : ¬ opCode o < opCode d.toUnblock := h d (List.mem_cons_self d rest)
    have ih' := ih (fun x hx => h x (List.mem_cons_of_mem d hx))
    simp [suspendStage, hd, ih']

/-- The suspend loop updates exactly the first drive whose `toUnblock`
exceeds the current operation's priority value. -/
theorem suspendStage_split (o : DBOp) (pre : List Drive) (d : Drive)
    (post : List Drive)
    (hpre : ∀ x ∈ pre, ¬ opCode o < opCode x.toUnblock)
    (hd : opCode o < opCode d.toUnblock) :
    suspendStage o (pre ++ d :: post)
      = (pre ++ { d with toUnblock := o } :: post, true) := by
  induction pre with
  | nil => simp [suspendStage, hd]
  | cons p rest ih =>
    have hp : ¬ opCode o < opCode p.toUnblock := hpre p (List.mem_cons_self p rest)
    have ih' := ih (fun x hx => hpre x (List.mem_cons_of_mem p hx))
    simp [suspendStage, hp, ih']

/-- C7: when `tapeResAvail` reaches its suspension stage — the cartridge is
neither moving, in use nor mounted, no usable free drive lets it mount, and
no usable drive holds an unmountable tape — then: with `requested` already
set it returns unavailable touching nothing; otherwise it updates the
`toUnblock` of the first drive whose value strictly exceeds the operation's
priority value, sets the cartridge's `requested`, and returns unavailable
(touching nothing when no such drive exists). -/
theorem tapeResAvail_suspend (st : SchedState) (c : Cartridge)
    (hc : getCartridge st.carts st.tapeId = some c)
    (h1 : c.state ≠ CartState.MOVING) (h2 : c.state ≠ CartState.INUSE)
    (h3 : c.state ≠ CartState.MOUNTED)
    (h4 : c.state = CartState.UNMOUNTED → findFreeDrive st = none)
    (h5 : findUnmountPair st = none) :
    (tapeResAvail st).avail = false
    ∧ (tapeResAvail st).actions = []
    ∧ (c.requested = true →
        (tapeResAvail st).drives = st.drives ∧ (tapeResAvail st).carts = st.carts)
    ∧ (c.requested = false →
        (∀ pre d post, st.drives = pre ++ d :: post →
          (∀ x ∈ pre, ¬ opCode st.op < opCode x.toUnblock) →
          opCode st.op < opCode d.toUnblock →
          (tapeResAvail st).drives = pre ++ { d with toUnblock := st.op } :: post
          ∧ (tapeResAvail st).carts
              = updateCart st.carts st.tapeId (fun x => { x with requested := true }))
        ∧ ((∀ x ∈ st.drives, ¬ opCode st.op < opCode x.toUnblock) →
          (tapeResAvail st).drives = st.drives
          ∧ (tapeResAvail st).carts = st.carts)) := by
  have e1 : (c.state == CartState.MOVING || c.state == CartState.INUSE) = false := by
    cases hs : c.state <;> simp_all
  have e2 : (c.state == CartState.MOUNTED) = false := by
    cases hs : c.state <;> simp_all
  have hmain : tapeResAvail st = tapeResAvailRest st c := by
    rw [tapeResAvail, hc]
    simp only [e1, e2, Bool.false_eq_true, reduceIte]
    cases e3 : (c.state == CartState.UNMOUNTED) with
    | true =>
      have hu : c.state = CartState.UNMOUNTED := by
        cases hs : c.state <;> simp_all
      simp only [e3, reduceIte, h4 hu]
    | false =>
      simp only [e3, Bool.false_eq_true, reduceIte]
  cases hreq : c.requested with
  | true =>
    have hval : tapeResAvail st = ⟨false, st.drives, st.carts, st.driveId, []⟩ := by
      rw [hmain, tapeResAvailRest, h5]
      simp [hreq]
    rw [hval]
    exact ⟨rfl, rfl, fun _ => ⟨rfl, rfl⟩, fun hco => by simp at hco⟩
  | false =>
    have hval : tapeResAvail st =
        ⟨false, (suspendStage st.op st.drives).1,
          if (suspendStage st.op st.drives).2 then
            updateCart st.carts st.tapeId (fun x => { x with requested := true })
          else st.carts,
          st.driveId, []⟩ := by
      rw [hmain, tapeResAvailRest, h5]
      simp [hreq]
    rw [hval]
    refine ⟨rfl, rfl, fun hco => by simp at hco, fun _ => ⟨?_, ?_⟩⟩
    · intro pre d post hsplit hpre hlt
      have hss := suspendStage_split st.op pre d post hpre hlt
      rw [hsplit, hss]
      exact ⟨rfl, rfl⟩
    · intro hall
      have hss := suspendStage_none st.op st.drives hall
      rw [hss]
      exact ⟨rfl, rfl⟩

/-- C7 (witness): a selective recall for the unmounted tape `T1` while the
only drive is busy migrating (`toUnblock = MIGRATION`): the suspension
stage lowers the drive's `toUnblock` to the recall and flags the
cartridge. -/
theorem tapeResAvail_suspend_witness :
    (tapeResAvail ⟨[⟨"D0", 3, true, UNSET, "", DBOp.MIGRATION⟩],
        [⟨"T1", 9, CartState.UNMOUNTED, false, 100⟩],
        DBOp.SELRECALL, 5, "", "T1", "", TMOp.MOUNT⟩).drives
      = [⟨"D0", 3, true, UNSET, "", DBOp.SELRECALL⟩]
    ∧ (tapeResAvail ⟨[⟨"D0", 3, true, UNSET, "", DBOp.MIGRATION⟩],
        [⟨"T1", 9, CartState.UNMOUNTED, false, 100⟩],
        DBOp.SELRECALL, 5, "", "T1", "", TMOp.MOUNT⟩).carts
      = updateCart [⟨"T1", 9, CartState.UNMOUNTED, false, 100⟩] "T1"
          (fun x => { x with requested := true }) :=
  ((tapeResAvail_suspend
      ⟨[⟨"D0", 3, true, UNSET, "", DBOp.MIGRATION⟩],
        [⟨"T1", 9, CartState.UNMOUNTED, false, 100⟩],
        DBOp.SELRECALL, 5, "", "T1", "", TMOp.MOUNT⟩
      ⟨"T1", 9, CartState.UNMOUNTED, false, 100⟩
      (by decide) (by decide) (by decide) (by decide)
      (fun _ => by decide) (by decide)).2.2.2 rfl).1
    [] ⟨"D0", 3, true, UNSET, "", DBOp.MIGRATION⟩ [] rfl (by simp) (by decide)

/-- Replacing the move-request fields of one drive can only raise the
pending count of the pair it writes, and by at most one. -/
theorem pendingCount_setMoveReq (drives : List Drive) (did : String)
    (rq : Int) (pl : String) (r : Int) (p : String) :
    pendingCount (updateDrive drives did
        (fun d => { d with moveReqNum := rq, moveReqPool := pl })) r p
      ≤ pendingCount drives r p + (if rq = r ∧ pl = p then 1 else 0) := by
  induction drives with
  | nil => simp [updateDrive, pendingCount]
  | cons d rest ih =>
    by_cases h0 : (d.id == did) = true
    · rw [updateDrive, if_pos h0]
      rw [pendingCount, List.countP_cons, pendingCount, List.countP_cons]
      by_cases hp : rq = r ∧ pl = p
      · simp only [hp.1, hp.2, if_pos hp]
        simp [pendingCount]
      · have hf : ((rq == r) && (pl == p)) = false := by
          rcases not_and_or.mp hp with hne | hne <;> simp [hne]
        simp only [hf, if_neg hp]
        simp [pendingCount]
    · rw [updateDrive, if_neg (by simp_all)]
      rw [pendingCount, List.countP_cons, pendingCount, List.countP_cons]
      have := ih
      simp only [pendingCount] at this
      omega

/-- `requestExists` answers false exactly when no drive carries the pair as
its pending motion. -/
theorem requestExists_false_iff (drives : List Drive) (r : Int) (p : String) :
    requestExists drives r p = false ↔ pendingCount drives r p = 0 := by
  simp [requestExists, pendingCount, List.countP_eq_zero, List.any_eq_true]

/-- C8: `moveTape` preserves invariant I1 — for every pair `(reqNum, pool)`
with a real request number, at most one drive carries it as its pending
motion — and it enqueues a motion only when `requestExists` returned false
for the scheduling decision's pair, so a second motion for the same pair is
never issued while one is pending. -/
theorem moveTape_preserves_single_motion (st : SchedState) (did tid : String)
    (top : TMOp)
    (hinv : ∀ r p, r ≠ UNSET → pendingCount st.drives r p ≤ 1) :
    (∀ r p, r ≠ UNSET → pendingCount (moveTape st did tid top).1 r p ≤ 1)
    ∧ ((moveTape st did tid top).2 ≠ []
        → requestExists st.drives st.reqNum st.pool = false) := by
  rw [moveTape]
  by_cases hop : (st.op == DBOp.MOUNT || st.op == DBOp.MOVE
      || st.op == DBOp.UNMOUNT) = true
  · rw [if_pos hop]
    exact ⟨hinv, by simp⟩
  · rw [if_neg hop]
    cases hre : requestExists st.drives st.reqNum st.pool with
    | true =>
      simp only [reduceIte]
      exact ⟨hinv, by simp⟩
    | false =>
      simp only [Bool.false_eq_true, reduceIte]
      refine ⟨?_, fun _ => trivial⟩
      intro r p hr
      have hbound := pendingCount_setMoveReq st.drives did st.reqNum st.pool r p
      by_cases hpair : st.reqNum = r ∧ st.pool = p
      · have h0 : pendingCount st.drives r p = 0 := by
          rw [← hpair.1, ← hpair.2]
          exact (requestExists_false_iff st.drives st.reqNum st.pool).mp hre
        rw [if_pos hpair] at hbound
        omega
      · rw [if_neg hpair] at hbound
        have := hinv r p hr
        omega

/-- C8 (witness): the preserved bound evaluated after a motion is enqueued
on a server with a single idle drive. -/
theorem moveTape_preserves_single_motion_witness :
    pendingCount (moveTape ⟨[⟨"D0", 3, false, UNSET, "", DBOp.UNMOUNT⟩], [],
        DBOp.SELRECALL, 5, "poolA", "t0", "", TMOp.MOUNT⟩ "D0" "t0" TMOp.MOUNT).1
      5 "poolA" ≤ 1 :=
  (moveTape_preserves_single_motion
      ⟨[⟨"D0", 3, false, UNSET, "", DBOp.UNMOUNT⟩], [],
        DBOp.SELRECALL, 5, "poolA", "t0", "", TMOp.MOUNT⟩ "D0" "t0" TMOp.MOUNT
      (by
        intro r p _
        simp [pendingCount, List.countP_cons]
        split <;> omega)).1 5 "poolA" (by decide)

end LTFSDM
